/-
Verification of the VTU timetable scheduler (service-timetable-python/scheduler.py).

This file gives a shallow embedding of the scheduler's data model and of the
operations relevant to the frozen claims: the CSP constraint checker, the
fitness evaluator, project-block scheduling, the swap move shared by mutation
and tabu local search, the tabu local search itself, the post-generation
lab-continuity repair, and the retry driver.  Randomness in the source
(random.randint / random.sample draws) is modelled by explicit oracle
arguments listing the drawn values; everything else is translated directly
from the Python source.
-/
import Mathlib

/-- The TimeSlot dataclass (a gene): one scheduled unit. -/
structure TimeSlot where
  day : Nat
  period : Nat
  subject_code : String
  subject_name : String
  subject_type : String
  faculty_id : String
  section_id : String
  room_id : String
  batch_number : Nat := 0
  is_theory : Bool := true
deriving DecidableEq, Repr, Inhabited

/-- The Subject dataclass. -/
structure Subject where
  subject_code : String
  subject_name : String
  subject_type : String
  theory_hours : Nat
  lab_hours : Nat
  theory_faculty : String
  lab_faculty : String
  no_of_batches : Nat
  «section» : String
  semester : String
deriving DecidableEq, Repr, Inhabited

/-- One master-schedule entry (the dicts in master_schedule): an external,
already-committed reservation. -/
structure MasterSlot where
  day : Nat
  period : Nat
  faculty_id : String
  section_id : String
  room_id : String
  is_theory : Bool
deriving DecidableEq, Repr, Inhabited

/-- ASCII uppercase of one character (str.upper on the alphabets used here). -/
def upChar (c : Char) : Char :=
  if c.isLower then Char.ofNat (c.toNat - 32) else c

/-- ASCII uppercase of a string (str.upper on the alphabets used here). -/
def upStr (s : String) : String :=
  String.mk (s.data.map upChar)

/-- VTUSubjectValidator.is_project: subject_type.upper() in ['MP', 'PROJ']. -/
def is_project (subject_type : String) : Bool :=
  upStr subject_type == "MP" || upStr subject_type == "PROJ"

/-- The CSP constraint checker state: three defaultdict(set) maps keyed by
(day, period).  Sets of ids are modelled as duplicate-free lists. -/
structure CSPConstraintChecker where
  faculty_slots : Nat × Nat → List String
  section_slots : Nat × Nat → List String
  room_slots : Nat × Nat → List String

/-- A fresh checker: all three defaultdict(set) maps are empty. -/
def emptyChecker : CSPConstraintChecker :=
  ⟨fun _ => [], fun _ => [], fun _ => []⟩

/-- Insert an id into the set stored at one key of a (day, period)-indexed map,
leaving every other key unchanged (defaultdict(set).add). -/
def addToSlot (m : Nat × Nat → List String) (key : Nat × Nat) (v : String) :
    Nat × Nat → List String :=
  fun k => if k = key then (m key).insert v else m k

/-- CSPConstraintChecker.add_slot: record a gene's faculty and section at
(day, period); record its room iff the gene is theory or its batch_number is 0
(Python: if gene.is_theory or not gene.batch_number). -/
def add_slot (cc : CSPConstraintChecker) (gene : TimeSlot) : CSPConstraintChecker :=
  let key := (gene.day, gene.period)
  { faculty_slots := addToSlot cc.faculty_slots key gene.faculty_id
    section_slots := addToSlot cc.section_slots key gene.section_id
    room_slots :=
      if gene.is_theory || gene.batch_number == 0 then
        addToSlot cc.room_slots key gene.room_id
      else cc.room_slots }

/-- CSPConstraintChecker.is_available: an empty id string is falsy in Python,
so each of the three tests fires only for a non-empty id; the room test
additionally fires only when is_theory is true. -/
def is_available (cc : CSPConstraintChecker) (day period : Nat)
    (faculty_id section_id room_id : String) (is_theory : Bool) : Bool :=
  let key := (day, period)
  if faculty_id ≠ "" ∧ faculty_id ∈ cc.faculty_slots key then false
  else if section_id ≠ "" ∧ section_id ∈ cc.section_slots key then false
  else if is_theory = true ∧ room_id ≠ "" ∧ room_id ∈ cc.room_slots key then false
  else true

/-- CSPConstraintChecker.rebuild_from_genes: self.__init__() resets all three
maps of the checker, then every gene is re-added; the result is therefore
independent of the previous checker state. -/
def rebuild_from_genes (genes : List TimeSlot) : CSPConstraintChecker :=
  genes.foldl add_slot emptyChecker

/-- The slice of chromosome state visible at the rebuild call sites: the
constraint checker and the separate lab_usage_tracker field (a
defaultdict(set) keyed by (day, period) holding lab-room ids). -/
structure ChromoIndexState where
  constraint_checker : CSPConstraintChecker
  lab_usage_tracker : Nat × Nat → List String

/-- The call sites child.constraint_checker.rebuild_from_genes(child.genes):
only the constraint_checker field of the chromosome is replaced; the
lab_usage_tracker field is not mentioned by rebuild_from_genes. -/
def rebuildSite (st : ChromoIndexState) (genes : List TimeSlot) : ChromoIndexState :=
  { st with constraint_checker := rebuild_from_genes genes }

/-- Iterating a Python dict's keys in insertion order: the distinct elements of
a key list, first occurrences first. -/
def distinctKeys {α : Type} [DecidableEq α] (ks : List α) : List α :=
  ks.foldl (fun acc k => if k ∈ acc then acc else acc ++ [k]) []

/-- The conflict total of _count_conflicts_fast once slot_counts is built:
every key occurring with multiplicity count greater than 1 contributes
count - 1 (a key with multiplicity 1 contributes 0, which Nat subtraction
gives for free). -/
def conflictTotal {α : Type} [DecidableEq α] (ks : List α) : Nat :=
  ((distinctKeys ks).map (fun k => ks.count k - 1)).sum

/-- _count_conflicts_fast(resource_type): builds slot_counts keyed per
resource type and sums the excess multiplicities.  The room branch increments
only for theory genes. -/
def count_conflicts_fast (resource_type : String) (genes : List TimeSlot) : Nat :=
  if resource_type = "faculty" then
    conflictTotal (genes.map (fun g => (g.faculty_id, g.day, g.period)))
  else if resource_type = "section" then
    conflictTotal (genes.map (fun g => (g.section_id, g.day, g.period)))
  else if resource_type = "room" then
    conflictTotal ((genes.filter (fun g => g.is_theory)).map
      (fun g => (g.room_id, g.day, g.period)))
  else 0

/-- Insertion of one number into a non-descending list (helper for sorted()). -/
def insertSorted (n : Nat) : List Nat → List Nat
  | [] => [n]
  | m :: ms => if n ≤ m then n :: m :: ms else m :: insertSorted n ms

/-- Python's sorted() on a list of periods. -/
def sortPeriods (l : List Nat) : List Nat :=
  l.foldr insertSorted []

/-- The grouping key of _check_lab_continuity and of the repair pass:
(subject_code, section_id, batch_number, day). -/
abbrev LabKey := String × String × Nat × Nat

/-- The (subject_code, section_id, batch_number, day) key of a gene. -/
def keyOf (g : TimeSlot) : LabKey :=
  (g.subject_code, g.section_id, g.batch_number, g.day)

/-- The periods of the non-theory genes carrying a given lab-session key. -/
def labPeriods (genes : List TimeSlot) (k : LabKey) : List Nat :=
  ((genes.filter (fun g => !g.is_theory && (keyOf g == k))).map (fun g => g.period))

/-- A sorted period list has a break: some adjacent pair does not step by
exactly 1 (this is the inner loop of _check_lab_continuity; the Python break
after the first hit makes each group count at most once, i.e. a countP). -/
def hasPeriodBreak (ps : List Nat) : Bool :=
  (ps.zip ps.tail).any (fun p => p.2 - p.1 != 1)

/-- _check_lab_continuity: one violation per (subject, section, batch, day)
group of at least two non-theory genes whose sorted periods are not a
contiguous run. -/
def check_lab_continuity (genes : List TimeSlot) : Nat :=
  (distinctKeys ((genes.filter (fun g => !g.is_theory)).map keyOf)).countP
    (fun k =>
      let ps := sortPeriods (labPeriods genes k)
      decide (2 ≤ ps.length) && hasPeriodBreak ps)

/-- The periods of the project-typed genes of one (section_id, day) group. -/
def projectPeriods (genes : List TimeSlot) (k : String × Nat) : List Nat :=
  ((genes.filter (fun g => is_project g.subject_type &&
      (g.section_id == k.1) && (g.day == k.2))).map (fun g => g.period))

/-- Python set equality set(periods) == set([4, 5, 6]). -/
def isAfternoonSet (ps : List Nat) : Bool :=
  ps.all (fun p => p ∈ [4, 5, 6]) && [4, 5, 6].all (fun q => q ∈ ps)

/-- _check_project_continuity: one violation per (section, day) group of
project genes unless it has exactly three members whose period set is
{4, 5, 6}. -/
def check_project_continuity (genes : List TimeSlot) : Nat :=
  (distinctKeys ((genes.filter (fun g => is_project g.subject_type)).map
      (fun g => (g.section_id, g.day)))).countP
    (fun k =>
      let ps := projectPeriods genes k
      !(ps.length == 3 && isAfternoonSet ps))

/-- The periods of all genes of one (section_id, day) group. -/
def sectionDayPeriods (genes : List TimeSlot) (k : String × Nat) : List Nat :=
  ((genes.filter (fun g => (g.section_id == k.1) && (g.day == k.2))).map
    (fun g => g.period))

/-- _check_gaps: per (section, day) group, (span - count) * 2 where span is
last - first + 1 of the sorted periods.  Duplicate periods make the
contribution negative in Python, so the computation lives in Int. -/
def check_gaps (genes : List TimeSlot) : Int :=
  ((distinctKeys (genes.map (fun g => (g.section_id, g.day)))).map
    (fun k =>
      let ps := sortPeriods (sectionDayPeriods genes k)
      (((ps.getLastD 0 : Int) - (ps.headD 0 : Int) + 1) - (ps.length : Int)) * 2)).sum

/-- _check_theory_distribution: per (subject, section, day) triple of theory
genes, the excess of its multiplicity over 2. -/
def check_theory_distribution (genes : List TimeSlot) : Nat :=
  let triples := (genes.filter (fun g => g.is_theory)).map
    (fun g => (g.subject_code, g.section_id, g.day))
  ((distinctKeys triples).map (fun k => triples.count k - 2)).sum

/-- The count of theory genes of non-project subjects sitting in afternoon
periods [4, 5, 6]. -/
def afternoonTheoryCount (genes : List TimeSlot) : Nat :=
  genes.countP (fun g =>
    g.is_theory && !is_project g.subject_type && (g.period ∈ [4, 5, 6]))

/-- _penalize_theory_afternoon: the afternoon-theory count tripled
(return count * 3). -/
def penalize_theory_afternoon (genes : List TimeSlot) : Nat :=
  afternoonTheoryCount genes * 3

/-- _penalize_sparse_days: per (section, day) group with at most two genes,
the shortfall 3 - count. -/
def penalize_sparse_days (genes : List TimeSlot) : Nat :=
  let keys := genes.map (fun g => (g.section_id, g.day))
  ((distinctKeys keys).map (fun k =>
    let c := keys.count k
    if c ≤ 2 then 3 - c else 0)).sum

/-- calculate_fitness: 1000 minus the weighted violation terms, clamped at 0.
The weights and term order follow the source. -/
def calculate_fitness (genes : List TimeSlot) : Int :=
  let fitness : Int :=
    1000
      - (count_conflicts_fast "faculty" genes : Int) * 500
      - (count_conflicts_fast "section" genes : Int) * 500
      - (count_conflicts_fast "room" genes : Int) * 400
      - (check_lab_continuity genes : Int) * 200
      - (check_project_continuity genes : Int) * 300
      - check_gaps genes * 100
      - (check_theory_distribution genes : Int) * 50
      - (penalize_theory_afternoon genes : Int) * 100
      - (penalize_sparse_days genes : Int) * 30
  max 0 fitness

/-- The afternoon periods [4, 5, 6] of the chromosome. -/
def afternoonPeriods : List Nat := [4, 5, 6]

/-- The three genes appended for one accepted project day: one non-theory
assignment per afternoon period, in the section's default classroom. -/
def projectBlockGenes (subject : Subject) (section_id classroom : String)
    (day : Nat) : List TimeSlot :=
  afternoonPeriods.map (fun period =>
    { day := day, period := period
      subject_code := subject.subject_code
      subject_name := subject.subject_name
      subject_type := subject.subject_type
      faculty_id := subject.lab_faculty
      section_id := section_id
      room_id := classroom
      is_theory := false })

/-- The acceptance test of _schedule_project_csp for one day: all three
afternoon periods available for the lab faculty, the section and the
classroom, with is_theory passed as False. -/
def dayAllAvailable (cc : CSPConstraintChecker) (day : Nat)
    (lab_faculty section_id classroom : String) : Bool :=
  afternoonPeriods.all (fun p =>
    is_available cc day p lab_faculty section_id classroom false)

/-- The mutable state threaded through _schedule_project_csp: the gene list,
the constraint checker, and the count of blocks scheduled so far. -/
structure ProjState where
  genes : List TimeSlot
  cc : CSPConstraintChecker
  scheduled : Nat

/-- The day loop of _schedule_project_csp: days are tried in the order of
range(days_per_week); once scheduled reaches blocks_needed the loop breaks
(scheduled only grows, so returning at the first saturated head is the same
as the Python break). -/
def scheduleProjectDays (subject : Subject) (section_id classroom : String)
    (blocks_needed : Nat) : List Nat → ProjState → ProjState
  | [], st => st
  | day :: ds, st =>
    if blocks_needed ≤ st.scheduled then st
    else if dayAllAvailable st.cc day subject.lab_faculty section_id classroom then
      let block := projectBlockGenes subject section_id classroom day
      scheduleProjectDays subject section_id classroom blocks_needed ds
        ⟨st.genes ++ block, block.foldl add_slot st.cc, st.scheduled + 1⟩
    else scheduleProjectDays subject section_id classroom blocks_needed ds st

/-- _schedule_project_csp: a falsy (empty) lab_faculty returns immediately;
otherwise lab_hours // 3 blocks are placed by the day loop.  classroom is
self.sections[section_id].classroom at the call site. -/
def schedule_project_csp (subject : Subject) (section_id classroom : String)
    (days_per_week : Nat) (st : ProjState) : ProjState :=
  if subject.lab_faculty = "" then st
  else scheduleProjectDays subject section_id classroom (subject.lab_hours / 3)
    (List.range days_per_week) st

/-- The swap used by both the evolution loop's mutation
(child.genes[idx1], child.genes[idx2] = child.genes[idx2], child.genes[idx1])
and each candidate move of tabu_local_search: the two list entries are
exchanged wholesale. -/
def swapGenes (genes : List TimeSlot) (i j : Nat) : List TimeSlot :=
  let a := genes.getD i default
  let b := genes.getD j default
  (genes.set i b).set j a

/-- Modelled from the spec: the move the spec describes instead, swapping only
the (day, period) fields of the two selected assignments and keeping every
other field in place.  Used only to compare against swapGenes. -/
def specSwapDayPeriod (genes : List TimeSlot) (i j : Nat) : List TimeSlot :=
  let a := genes.getD i default
  let b := genes.getD j default
  (genes.set i { a with day := b.day, period := b.period }).set j
    { b with day := a.day, period := a.period }

/-- The state of tabu_local_search between iterations: the gene list, the
tabu FIFO of committed moves, and current_fitness. -/
structure TabuState where
  genes : List TimeSlot
  tabu : List (Nat × Nat)
  current : Int

/-- The sampling loop of one tabu iteration over the drawn index pairs
(idx1, idx2): pairs failing the distinctness/theory guards or sitting on the
tabu list are skipped; otherwise the swap is tried (swap, rebuild, evaluate,
unswap in the source, which the functional evaluation of the swapped list
reproduces because randint only draws in-range indices) and the move is
recorded when it beats the best fitness so far.  A gene list shorter than 2
breaks out at once. -/
def findBestMove (genes : List TimeSlot) (tabu : List (Nat × Nat)) :
    List (Nat × Nat) → Option (Nat × Nat) × Int → Option (Nat × Nat) × Int
  | [], acc => acc
  | (i, j) :: rest, (bm, bf) =>
    if genes.length < 2 then (bm, bf)
    else if i = j ∨ (genes.getD i default).is_theory = false
        ∨ (genes.getD j default).is_theory = false then
      findBestMove genes tabu rest (bm, bf)
    else if (i, j) ∈ tabu then
      findBestMove genes tabu rest (bm, bf)
    else
      let newFit := calculate_fitness (swapGenes genes i j)
      if bf < newFit then findBestMove genes tabu rest (some (i, j), newFit)
      else findBestMove genes tabu rest (bm, bf)

/-- One iteration of tabu_local_search: stop once current_fitness reached
1000; otherwise commit the best sampled move (if any), append it to the tabu
list and trim the list to tabu_size by popping its front. -/
def tabuIteration (tabu_size : Nat) (samples : List (Nat × Nat))
    (st : TabuState) : TabuState :=
  if 1000 ≤ st.current then st
  else
    match findBestMove st.genes st.tabu samples (none, st.current) with
    | (some (i, j), bf) =>
      let tabu1 := st.tabu ++ [(i, j)]
      ⟨swapGenes st.genes i j, if tabu_size < tabu1.length then tabu1.drop 1 else tabu1, bf⟩
    | (none, _) => st

/-- tabu_local_search: current_fitness starts at calculate_fitness of the
entry genes; the oracle lists, for each of the max_iterations loop turns, the
index pairs drawn by the ten randint samples of that turn. -/
def tabu_local_search (tabu_size : Nat) (oracle : List (List (Nat × Nat)))
    (genes0 : List TimeSlot) : TabuState :=
  oracle.foldl (fun st samples => tabuIteration tabu_size samples st)
    ⟨genes0, [], calculate_fitness genes0⟩

/-- The state mutated by repair_lab_continuity_post_generation: the gene list
and the lab_usage_tracker (the constraint-checker rebuild at the end of the
pass reads the gene list but never writes it, so it is not part of this
state). -/
structure RepairState where
  genes : List TimeSlot
  lab_usage_tracker : Nat × Nat → List String

/-- The indices recorded for one lab_sessions key: positions of the non-theory
genes whose (subject_code, section_id, batch_number, day) equals the key, in
enumeration order. -/
def labIndices (genes : List TimeSlot) (k : LabKey) : List Nat :=
  (List.range genes.length).filter (fun i =>
    decide ((genes.getD i default).is_theory = false ∧ keyOf (genes.getD i default) = k))

/-- The keys of lab_sessions in dict insertion order: first occurrences of the
keys of non-theory genes. -/
def labKeysOf (genes : List TimeSlot) : List LabKey :=
  distinctKeys ((genes.filter (fun g => !g.is_theory)).map keyOf)

/-- The per-gene conflict test inside _is_continuous_slot_available: a gene at
the probed (day, period) blocks the slot when its faculty, section, or room
(in the theory branch or the non-theory branch alike) matches. -/
def geneBlocksSlot (day period : Nat) (fac sec room : String) (g : TimeSlot) : Bool :=
  (g.day == day) && (g.period == period) &&
    ((g.faculty_id == fac) || (g.section_id == sec) ||
      (g.is_theory && (g.room_id == room)) || (!g.is_theory && (g.room_id == room)))

/-- The master-schedule conflict test inside _is_continuous_slot_available. -/
def masterBlocksSlot (day period : Nat) (fac sec room : String) (s : MasterSlot) : Bool :=
  (s.day == day) && (s.period == period) &&
    ((s.faculty_id == fac) || (s.section_id == sec) || (s.room_id == room))

/-- _is_continuous_slot_available: both periods of the two-hour window must be
free of conflicting genes (positions in exclude_indices are skipped) and of
conflicting master-schedule slots. -/
def is_continuous_slot_available (genes : List TimeSlot) (ms : List MasterSlot)
    (day start_period : Nat) (fac sec room : String) (excl : List Nat) : Bool :=
  [start_period, start_period + 1].all (fun period =>
    ((List.range genes.length).all (fun idx =>
      excl.contains idx || !geneBlocksSlot day period fac sec room (genes.getD idx default))) &&
    ms.all (fun s => !masterBlocksSlot day period fac sec room s))

/-- The same-day search of the repair pass: the first start period in
[0, 2, 4] whose two-hour window is available. -/
def sameDaySearch (genes : List TimeSlot) (ms : List MasterSlot) (day : Nat)
    (fac sec room : String) (excl : List Nat) : Option Nat :=
  [0, 2, 4].find? (fun sp => is_continuous_slot_available genes ms day sp fac sec room excl)

/-- The other-day search of the repair pass: days of range(days_per_week)
other than the original day, each probed at start periods [0, 2, 4]. -/
def otherDaySearch (genes : List TimeSlot) (ms : List MasterSlot)
    (days_per_week day : Nat) (fac sec room : String) (excl : List Nat) :
    Option (Nat × Nat) :=
  ((List.range days_per_week).filter (fun nd => nd != day)).findSome? (fun nd =>
    ([0, 2, 4].find? (fun sp => is_continuous_slot_available genes ms nd sp fac sec room excl)).map
      (fun sp => (nd, sp)))

/-- Processing of one lab_sessions group in repair_lab_continuity_post_generation:
groups whose index list is not a pair are skipped; contiguous pairs are
skipped; otherwise the same-day search and then the other-day search run, and
on a hit the two genes' periods (and day, in the other-day case) are
rewritten in place; the other-day case also reserves the room in
lab_usage_tracker for both periods. -/
def processGroup (ms : List MasterSlot) (days_per_week : Nat)
    (st : RepairState) (kidx : LabKey × List Nat) : RepairState :=
  match kidx.2 with
  | [i0, i1] =>
    let g0 := st.genes.getD i0 default
    let g1 := st.genes.getD i1 default
    let pLo := min g0.period g1.period
    let pHi := max g0.period g1.period
    if pHi - pLo = 1 then st
    else
      let day := kidx.1.2.2.2
      let sec := kidx.1.2.1
      let fac := g0.faculty_id
      let room := g0.room_id
      match sameDaySearch st.genes ms day fac sec room [i0, i1] with
      | some sp =>
        { st with genes := ((st.genes.set i0 { g0 with period := sp }).set i1
            { g1 with period := sp + 1 }) }
      | none =>
        match otherDaySearch st.genes ms days_per_week day fac sec room [i0, i1] with
        | some (nd, sp) =>
          { genes := ((st.genes.set i0 { g0 with day := nd, period := sp }).set i1
              { g1 with day := nd, period := sp + 1 })
            lab_usage_tracker :=
              addToSlot (addToSlot st.lab_usage_tracker (nd, sp) room) (nd, sp + 1) room }
        | none => st
  | _ => st

/-- repair_lab_continuity_post_generation: the lab_sessions grouping is taken
once from the incoming gene list, then every group is processed in dict
insertion order. -/
def repair_lab_continuity_post_generation (ms : List MasterSlot)
    (days_per_week : Nat) (st : RepairState) : RepairState :=
  ((labKeysOf st.genes).map (fun k => (k, labIndices st.genes k))).foldl
    (processGroup ms days_per_week) st

/-- A gene index is eligible for repair rewriting: it holds a non-theory gene
whose (subject, section, batch, day) group has exactly two members with
non-contiguous periods. -/
def eligibleIdx (genes : List TimeSlot) (m : Nat) : Bool :=
  decide (m < genes.length) && ((genes.getD m default).is_theory == false) &&
    (let idxs := labIndices genes (keyOf (genes.getD m default))
     let pA := (genes.getD (idxs.getD 0 0) default).period
     let pB := (genes.getD (idxs.getD 1 0) default).period
     (idxs.length == 2) && (max pA pB - min pA pB != 1))

/-- Equality of two genes on every field except day and period. -/
def sameExceptDayPeriod (g g' : TimeSlot) : Prop :=
  g.subject_code = g'.subject_code ∧ g.subject_name = g'.subject_name ∧
  g.subject_type = g'.subject_type ∧ g.faculty_id = g'.faculty_id ∧
  g.section_id = g'.section_id ∧ g.room_id = g'.room_id ∧
  g.batch_number = g'.batch_number ∧ g.is_theory = g'.is_theory

/-- The value generate_timetable_with_retry can hand back: either the bare
assignment list stored from an attempt (both return statements of
generate_semester_timetable produce a bare list of gene dicts, which carries
no fitness, success or warnings fields), or the last-resort dict built when
every attempt produced an empty timetable. -/
inductive RetryReturn where
  | bareList (timetable : List TimeSlot)
  | failureDict (timetable : List TimeSlot) (fitness : Int) (success : Bool)
      (warnings : List String)
deriving DecidableEq, Repr

/-- One solver attempt as the retry driver perceives it: the solver's internal
best_ever fitness paired with the gene list; generate_semester_timetable
returns only the bare gene list, dropping the fitness. -/
def generateSemesterReturn (attempt : Int × List TimeSlot) : List TimeSlot :=
  attempt.2

/-- The attempt loop of generate_timetable_with_retry.  Because every attempt
result is a bare list, isinstance(result, dict) is false and the fallback
branch sets current_fitness = 0 on every attempt; the loop keeps the first
non-empty attempt as best_result and, with a positive threshold, never exits
early. -/
def retryGo (fitness_threshold : Int) :
    List (Int × List TimeSlot) → Option (List TimeSlot) → Int → RetryReturn
  | [], best, _ =>
    match best with
    | some r => RetryReturn.bareList r
    | none => RetryReturn.failureDict [] 0 false ["Failed to generate any valid timetable"]
  | a :: rest, best, best_fitness =>
    let result := generateSemesterReturn a
    let current_fitness : Int := 0
    let current_timetable := result
    let keep := current_timetable ≠ [] ∧ best_fitness < current_fitness
    let best2 := if keep then some result else best
    let bf2 := if keep then current_fitness else best_fitness
    if fitness_threshold ≤ current_fitness then RetryReturn.bareList result
    else retryGo fitness_threshold rest best2 bf2

/-- generate_timetable_with_retry, with the attempts listed explicitly:
best_result starts at None and best_fitness at -1. -/
def generate_timetable_with_retry (attempts : List (Int × List TimeSlot))
    (fitness_threshold : Int) : RetryReturn :=
  retryGo fitness_threshold attempts none (-1)

/-- Modelled from the spec: calculate_fitness with the afternoon-theory term
replaced by weight w per afternoon theory assignment (the claim reads the
effective weight as 100); every other term is the source's. -/
def specFitnessAfternoonWeight (w : Int) (genes : List TimeSlot) : Int :=
  let fitness : Int :=
    1000
      - (count_conflicts_fast "faculty" genes : Int) * 500
      - (count_conflicts_fast "section" genes : Int) * 500
      - (count_conflicts_fast "room" genes : Int) * 400
      - (check_lab_continuity genes : Int) * 200
      - (check_project_continuity genes : Int) * 300
      - check_gaps genes * 100
      - (check_theory_distribution genes : Int) * 50
      - w * (afternoonTheoryCount genes : Int)
      - (penalize_sparse_days genes : Int) * 30
  max 0 fitness

/-- Modelled from the spec: the number of lab-room double-booking violations
the claim describes, (k - 1) per (room, day, period) triple referenced by k
non-theory assignments. -/
def specLabRoomConflicts (genes : List TimeSlot) : Nat :=
  conflictTotal ((genes.filter (fun g => !g.is_theory)).map
    (fun g => (g.room_id, g.day, g.period)))

/-- Modelled from the spec: calculate_fitness extended with the additional
400-weighted lab-room double-booking term the claim asserts. -/
def specFitnessWithLabRoom (genes : List TimeSlot) : Int :=
  let fitness : Int :=
    1000
      - (count_conflicts_fast "faculty" genes : Int) * 500
      - (count_conflicts_fast "section" genes : Int) * 500
      - (count_conflicts_fast "room" genes : Int) * 400
      - (specLabRoomConflicts genes : Int) * 400
      - (check_lab_continuity genes : Int) * 200
      - (check_project_continuity genes : Int) * 300
      - check_gaps genes * 100
      - (check_theory_distribution genes : Int) * 50
      - (penalize_theory_afternoon genes : Int) * 100
      - (penalize_sparse_days genes : Int) * 30
  max 0 fitness

/-- A theory gene of a non-project subject sitting in afternoon period 4. -/
def afternoonTheoryGene : TimeSlot :=
  { day := 0, period := 4, subject_code := "PCC1", subject_name := "Core 1"
    subject_type := "PCC", faculty_id := "F1", section_id := "6_A"
    room_id := "R1", batch_number := 0, is_theory := true }

/-- A non-theory lab gene in room LAB1 at (day 0, period 0), batch 1. -/
def labGeneA : TimeSlot :=
  { day := 0, period := 0, subject_code := "L1", subject_name := "Lab 1"
    subject_type := "PCCL", faculty_id := "F1", section_id := "6_A"
    room_id := "LAB1", batch_number := 1, is_theory := false }

/-- A second non-theory lab gene sharing room LAB1 at (day 0, period 0) with
labGeneA but with a different faculty, section and subject. -/
def labGeneB : TimeSlot :=
  { day := 0, period := 0, subject_code := "L2", subject_name := "Lab 2"
    subject_type := "PCCL", faculty_id := "F2", section_id := "4_B"
    room_id := "LAB1", batch_number := 1, is_theory := false }

/-- A theory gene with subject code X1 at (day 0, period 0). -/
def theoryGeneX : TimeSlot :=
  { day := 0, period := 0, subject_code := "X1", subject_name := "Theory X"
    subject_type := "PCC", faculty_id := "F1", section_id := "6_A"
    room_id := "R1", batch_number := 0, is_theory := true }

/-- A theory gene with subject code Y1 at (day 1, period 1). -/
def theoryGeneY : TimeSlot :=
  { day := 1, period := 1, subject_code := "Y1", subject_name := "Theory Y"
    subject_type := "PCC", faculty_id := "F2", section_id := "4_B"
    room_id := "R2", batch_number := 0, is_theory := true }

/-- A master-schedule-style theory reservation occupying room R1 at
(day 0, period 0) with otherwise fresh ids. -/
def masterTheoryGene : TimeSlot :=
  { day := 0, period := 0, subject_code := "", subject_name := ""
    subject_type := "", faculty_id := "F9", section_id := "S9"
    room_id := "R1", batch_number := 0, is_theory := true }

/-- A master-schedule-style theory reservation occupying room R1 at
(day 0, period 4), the first afternoon period of day 0. -/
def masterAfternoonGene : TimeSlot :=
  { day := 0, period := 4, subject_code := "", subject_name := ""
    subject_type := "", faculty_id := "F9", section_id := "S9"
    room_id := "R1", batch_number := 0, is_theory := true }

/-- A project subject with a single three-hour block and lab faculty F1. -/
def projectSubject : Subject :=
  { subject_code := "PR1", subject_name := "Project", subject_type := "MP"
    theory_hours := 0, lab_hours := 3, theory_faculty := ""
    lab_faculty := "F1", no_of_batches := 1, «section» := "A", semester := "6" }

/-- The ascending list of days the project day loop accepts: days of
range(days_per_week) that pass dayAllAvailable against the initial checker,
capped at blocks_needed (each accepted block only touches the keys of its own
day, so later tests still read the initial occupancy). -/
def projectAcceptedDays (cc : CSPConstraintChecker) (fac sid classroom : String)
    (days_per_week blocks_needed : Nat) : List Nat :=
  ((List.range days_per_week).filter
    (fun d => dayAllAvailable cc d fac sid classroom)).take blocks_needed

/-- Afternoon availability of a day for just the faculty and the section. -/
def afternoonFacSecFree (cc : CSPConstraintChecker) (day : Nat)
    (fac sid : String) : Bool :=
  afternoonPeriods.all (fun p =>
    decide (fac ∉ cc.faculty_slots (day, p)) && decide (sid ∉ cc.section_slots (day, p)))

/-- A checker whose only occupancy is room R1 at (day 0, period 4). -/
def projectBlockedRoomChecker : CSPConstraintChecker :=
  add_slot emptyChecker masterAfternoonGene

/-- A lab-usage tracker holding room LAB1 at (day 0, period 0). -/
def labUsageExample : Nat × Nat → List String :=
  fun k => if k = (0, 0) then ["LAB1"] else []

/-- An empty lab-usage tracker. -/
def emptyLabUsage : Nat × Nat → List String := fun _ => []

theorem mem_addToSlot {m : Nat × Nat → List String} {key k : Nat × Nat}
    {v x : String} :
    x ∈ addToSlot m key v k ↔ x ∈ m k ∨ (k = key ∧ x = v) := by
  unfold addToSlot
  by_cases h : k = key
  · subst h
    simp [List.mem_insert_iff, or_comm]
  · simp [h]

theorem mem_faculty_foldl (genes : List TimeSlot) (cc : CSPConstraintChecker)
    (f : String) (k : Nat × Nat) :
    f ∈ (genes.foldl add_slot cc).faculty_slots k ↔
      f ∈ cc.faculty_slots k ∨ ∃ g ∈ genes, g.faculty_id = f ∧ (g.day, g.period) = k := by
  induction genes generalizing cc with
  | nil => simp
  | cons g gs ih =>
    rw [List.foldl_cons, ih]
    have : f ∈ (add_slot cc g).faculty_slots k ↔
        f ∈ cc.faculty_slots k ∨ (k = (g.day, g.period) ∧ f = g.faculty_id) := by
      simpa [add_slot] using (mem_addToSlot (m := cc.faculty_slots))
    rw [this]
    constructor
    · rintro (((h | ⟨hk, hf⟩) | ⟨g', hg', hf', hk'⟩))
      · exact Or.inl h
      · exact Or.inr ⟨g, List.mem_cons_self g gs, hf.symm, hk.symm⟩
      · exact Or.inr ⟨g', List.mem_cons_of_mem g hg', hf', hk'⟩
    · rintro (h | ⟨g', hg', hf', hk'⟩)
      · exact Or.inl (Or.inl h)
      · rcases List.mem_cons.mp hg' with hEq | hmem
        · subst hEq
          exact Or.inl (Or.inr ⟨hk'.symm, hf'.symm⟩)
        · exact Or.inr ⟨g', hmem, hf', hk'⟩

theorem mem_section_foldl (genes : List TimeSlot) (cc : CSPConstraintChecker)
    (s : String) (k : Nat × Nat) :
    s ∈ (genes.foldl add_slot cc).section_slots k ↔
      s ∈ cc.section_slots k ∨ ∃ g ∈ genes, g.section_id = s ∧ (g.day, g.period) = k := by
  induction genes generalizing cc with
  | nil => simp
  | cons g gs ih =>
    rw [List.foldl_cons, ih]
    have : s ∈ (add_slot cc g).section_slots k ↔
        s ∈ cc.section_slots k ∨ (k = (g.day, g.period) ∧ s = g.section_id) := by
      simpa [add_slot] using (mem_addToSlot (m := cc.section_slots))
    rw [this]
    constructor
    · rintro (((h | ⟨hk, hs⟩) | ⟨g', hg', hs', hk'⟩))
      · exact Or.inl h
      · exact Or.inr ⟨g, List.mem_cons_self g gs, hs.symm, hk.symm⟩
      · exact Or.inr ⟨g', List.mem_cons_of_mem g hg', hs', hk'⟩
    · rintro (h | ⟨g', hg', hs', hk'⟩)
      · exact Or.inl (Or.inl h)
      · rcases List.mem_cons.mp hg' with hEq | hmem
        · subst hEq
          exact Or.inl (Or.inr ⟨hk'.symm, hs'.symm⟩)
        · exact Or.inr ⟨g', hmem, hs', hk'⟩

theorem mem_room_foldl (genes : List TimeSlot) (cc : CSPConstraintChecker)
    (r : String) (k : Nat × Nat) :
    r ∈ (genes.foldl add_slot cc).room_slots k ↔
      r ∈ cc.room_slots k ∨
        ∃ g ∈ genes, (g.is_theory = true ∨ g.batch_number = 0) ∧
          g.room_id = r ∧ (g.day, g.period) = k := by
  induction genes generalizing cc with
  | nil => simp
  | cons g gs ih =>
    rw [List.foldl_cons, ih]
    have hstep : r ∈ (add_slot cc g).room_slots k ↔
        r ∈ cc.room_slots k ∨
          ((g.is_theory = true ∨ g.batch_number = 0) ∧ k = (g.day, g.period) ∧ r = g.room_id) := by
      by_cases hc : g.is_theory || g.batch_number == 0
      · have hc' : g.is_theory = true ∨ g.batch_number = 0 := by
          rcases Bool.or_eq_true_iff.mp hc with h | h
          · exact Or.inl h
          · exact Or.inr (Nat.beq_eq_true_eq _ _ ▸ h)
        simp only [add_slot, hc, if_true]
        rw [mem_addToSlot]
        tauto
      · have hc' : ¬(g.is_theory = true ∨ g.batch_number = 0) := by
          have hfalse : (g.is_theory || (g.batch_number == 0)) = false :=
            Bool.not_eq_true _ |>.mp hc
          rcases Bool.or_eq_false_iff.mp hfalse with ⟨h1, h2⟩
          push_neg
          refine ⟨by simp [h1], ?_⟩
          simpa using h2
        simp only [add_slot, hc, if_false]
        tauto
    rw [hstep]
    constructor
    · rintro (((h | ⟨hth, hk, hr⟩) | ⟨g', hg', hth', hr', hk'⟩))
      · exact Or.inl h
      · exact Or.inr ⟨g, List.mem_cons_self g gs, hth, hr.symm, hk.symm⟩
      · exact Or.inr ⟨g', List.mem_cons_of_mem g hg', hth', hr', hk'⟩
    · rintro (h | ⟨g', hg', hth', hr', hk'⟩)
      · exact Or.inl (Or.inl h)
      · rcases List.mem_cons.mp hg' with hEq | hmem
        · subst hEq
          exact Or.inl (Or.inr ⟨hth', hk'.symm, hr'.symm⟩)
        · exact Or.inr ⟨g', hmem, hth', hr', hk'⟩

/-- C5 (amended): is_available returns false exactly when a non-empty faculty
id or a non-empty section id is present in its occupancy set at (day, period),
or is_theory is true and a non-empty room id is present in the room set; in
particular the room id is ignored when is_theory is false, and an empty-string
id never causes unavailability. -/
theorem is_available_false_characterization (cc : CSPConstraintChecker)
    (day period : Nat) (f s r : String) (th : Bool) :
    is_available cc day period f s r th = false ↔
      ((f ≠ "" ∧ f ∈ cc.faculty_slots (day, period)) ∨
       (s ≠ "" ∧ s ∈ cc.section_slots (day, period)) ∨
       (th = true ∧ r ≠ "" ∧ r ∈ cc.room_slots (day, period))) := by
  unfold is_available
  dsimp only
  split_ifs with h1 h2 h3 <;> simp_all

/-- C5 (counterexample): with room R1 occupied at (0, 0) and is_theory false,
is_available returns true even though the non-empty room id R1 is present in
the room occupancy set, contradicting the claim that presence of any of the
three non-empty ids forces a false result. -/
theorem is_available_ignores_room_when_lab :
    is_available (add_slot emptyChecker masterTheoryGene) 0 0 "F1" "S1" "R1" false = true ∧
    "R1" ∈ (add_slot emptyChecker masterTheoryGene).room_slots (0, 0) := by
  constructor
  · decide
  · decide

/-- C7 (amended): rebuild_from_genes resets the checker's three occupancy maps
and re-adds every assignment of the list, so membership in each map afterwards
is exactly the occupancy induced by the list (the room map taking only theory
or batch-0 assignments, as add_slot does); the lab-room-usage map is a
separate chromosome field that the rebuild call leaves untouched. -/
theorem rebuild_reflects_exactly_genes :
    (∀ (L : List TimeSlot) (f : String) (k : Nat × Nat),
        f ∈ (rebuild_from_genes L).faculty_slots k ↔
          ∃ g ∈ L, g.faculty_id = f ∧ (g.day, g.period) = k) ∧
    (∀ (L : List TimeSlot) (s : String) (k : Nat × Nat),
        s ∈ (rebuild_from_genes L).section_slots k ↔
          ∃ g ∈ L, g.section_id = s ∧ (g.day, g.period) = k) ∧
    (∀ (L : List TimeSlot) (r : String) (k : Nat × Nat),
        r ∈ (rebuild_from_genes L).room_slots k ↔
          ∃ g ∈ L, (g.is_theory = true ∨ g.batch_number = 0) ∧
            g.room_id = r ∧ (g.day, g.period) = k) ∧
    (∀ (st : ChromoIndexState) (L : List TimeSlot),
        (rebuildSite st L).lab_usage_tracker = st.lab_usage_tracker) := by
  refine ⟨fun L f k => ?_, fun L s k => ?_, fun L r k => ?_, fun st L => rfl⟩
  · rw [rebuild_from_genes, mem_faculty_foldl]
    simp [emptyChecker]
  · rw [rebuild_from_genes, mem_section_foldl]
    simp [emptyChecker]
  · rw [rebuild_from_genes, mem_room_foldl]
    simp [emptyChecker]

/-- C7 (counterexample): rebuilding from the empty assignment list leaves the
lab-room-usage map exactly as it was — here still holding LAB1 at (0, 0) —
although the claim says rebuild_from clears it together with the other maps. -/
theorem rebuild_does_not_clear_lab_usage :
    (rebuildSite ⟨emptyChecker, labUsageExample⟩ []).lab_usage_tracker (0, 0) = ["LAB1"] ∧
    (["LAB1"] : List String) ≠ ([] : List String) := by
  exact ⟨rfl, by decide⟩

/-- C8: after rebuilding the constraint index from a returned assignment list,
querying is_available with any member assignment's own day, period, faculty,
section, room and is_theory flag reports unavailable, provided that
assignment's faculty id is non-empty. -/
theorem rebuilt_index_reports_member_unavailable (L : List TimeSlot)
    (g : TimeSlot) (hg : g ∈ L) (hf : g.faculty_id ≠ "") :
    is_available (rebuild_from_genes L) g.day g.period g.faculty_id
      g.section_id g.room_id g.is_theory = false := by
  have hmem : g.faculty_id ∈ (rebuild_from_genes L).faculty_slots (g.day, g.period) := by
    rw [rebuild_from_genes, mem_faculty_foldl]
    exact Or.inr ⟨g, hg, rfl, rfl⟩
  unfold is_available
  rw [if_pos ⟨hf, hmem⟩]

/-- C8 (witness): the theorem applied to the singleton list holding
theoryGeneX. -/
theorem rebuilt_index_reports_member_unavailable_witness :
    is_available (rebuild_from_genes [theoryGeneX]) 0 0 "F1" "6_A" "R1" true = false :=
  rebuilt_index_reports_member_unavailable [theoryGeneX] theoryGeneX
    (List.mem_singleton.mpr rfl) (by decide)

/-- C2 (amended): the afternoon-theory soft constraint enters
calculate_fitness with an effective weight of 300 per afternoon theory
assignment of a non-project subject (the count is tripled by
_penalize_theory_afternoon and then weighted 100), not 100. -/
theorem afternoon_theory_effective_weight (genes : List TimeSlot) :
    calculate_fitness genes = specFitnessAfternoonWeight 300 genes := by
  have h : ((afternoonTheoryCount genes * 3 : Nat) : Int) * 100
      = 300 * (afternoonTheoryCount genes : Int) := by push_cast; ring
  unfold calculate_fitness specFitnessAfternoonWeight penalize_theory_afternoon
  dsimp only
  rw [h]

set_option maxRecDepth 8000 in
/-- C2 (counterexample): a single afternoon theory assignment yields fitness
640 = 1000 - 300 - 60, whereas a per-assignment reduction of 100 as claimed
would yield 840; the claimed weight of 100 mispredicts calculate_fitness. -/
theorem afternoon_theory_weight_not_100 :
    calculate_fitness [afternoonTheoryGene] = 640 ∧
    specFitnessAfternoonWeight 100 [afternoonTheoryGene] = 840 ∧
    calculate_fitness [afternoonTheoryGene] ≠
      specFitnessAfternoonWeight 100 [afternoonTheoryGene] := by
  exact ⟨by decide, by decide, by decide⟩

/-- C3 (amended): the 400-weighted room term of calculate_fitness counts only
theory assignments; a non-theory (lab) assignment never changes the room
conflict count, so (room, day, period) triples shared by several lab
assignments contribute no room-double-booking reduction. -/
theorem room_conflicts_ignore_labs (genes : List TimeSlot) (g : TimeSlot)
    (h : g.is_theory = false) :
    count_conflicts_fast "room" (g :: genes) = count_conflicts_fast "room" genes := by
  unfold count_conflicts_fast
  rw [if_neg (by decide), if_neg (by decide), if_pos rfl,
    if_neg (by decide), if_neg (by decide), if_pos rfl]
  simp [List.filter_cons, h]

/-- C3 (witness): appending the second lab gene that double-books LAB1 leaves
the room conflict count unchanged. -/
theorem room_conflicts_ignore_labs_witness :
    count_conflicts_fast "room" (labGeneB :: [labGeneA]) =
      count_conflicts_fast "room" [labGeneA] :=
  room_conflicts_ignore_labs [labGeneA] labGeneB (by decide)

set_option maxRecDepth 8000 in
/-- C3 (counterexample): two lab assignments double-book room LAB1 at
(day 0, period 0) — one violation by the claim's counting — yet
calculate_fitness is 880, not the 480 the claimed 400-per-excess lab-room
reduction would give. -/
theorem lab_room_double_booking_unpenalized :
    specLabRoomConflicts [labGeneA, labGeneB] = 1 ∧
    count_conflicts_fast "room" [labGeneA, labGeneB] = 0 ∧
    calculate_fitness [labGeneA, labGeneB] = 880 ∧
    specFitnessWithLabRoom [labGeneA, labGeneB] = 480 ∧
    calculate_fitness [labGeneA, labGeneB] ≠
      specFitnessWithLabRoom [labGeneA, labGeneB] := by
  exact ⟨by decide, by decide, by decide, by decide, by decide⟩

theorem getD_set_ne {α : Type} (l : List α) (i m : Nat) (x d : α) (h : m ≠ i) :
    (l.set i x).getD m d = l.getD m d := by
  induction l generalizing i m with
  | nil => simp
  | cons a t ih =>
    cases i with
    | zero =>
      cases m with
      | zero => exact absurd rfl h
      | succ m' => simp [List.set]
    | succ i' =>
      cases m with
      | zero => simp [List.set]
      | succ m' =>
        simpa [List.set] using ih i' m' (fun hc => h (by omega))

theorem getD_set_self {α : Type} (l : List α) (i : Nat) (x d : α)
    (h : i < l.length) :
    (l.set i x).getD i d = x := by
  induction l generalizing i with
  | nil => simp at h
  | cons a t ih =>
    cases i with
    | zero => simp [List.set]
    | succ i' => simpa [List.set] using ih i' (by simpa using h)

/-- C4 (amended): the swap performed by the mutation step and by each tabu
candidate move exchanges the two selected list positions wholesale — position
i receives the entire former assignment of position j and vice versa, with
every field carried along unchanged — and every other position of the
candidate is untouched (so the multiset of assignments is preserved, rather
than only the (day, period) fields being exchanged). -/
theorem swap_exchanges_whole_assignments (genes : List TimeSlot) (i j : Nat)
    (hi : i < genes.length) (hj : j < genes.length) :
    (swapGenes genes i j).length = genes.length ∧
    (swapGenes genes i j).getD i default = genes.getD j default ∧
    (swapGenes genes i j).getD j default = genes.getD i default ∧
    ∀ k, k ≠ i → k ≠ j → (swapGenes genes i j).getD k default = genes.getD k default := by
  unfold swapGenes
  dsimp only
  refine ⟨by simp, ?_, ?_, ?_⟩
  · by_cases hij : i = j
    · subst hij
      rw [getD_set_self _ _ _ _ (by simpa using hi)]
    · rw [getD_set_ne _ _ _ _ _ hij, getD_set_self _ _ _ _ hi]
  · rw [getD_set_self _ _ _ _ (by simpa using hj)]
  · intro k hki hkj
    rw [getD_set_ne _ _ _ _ _ hkj, getD_set_ne _ _ _ _ _ hki]

/-- C4 (witness): swapping positions 0 and 1 of a two-gene list puts the whole
second assignment at position 0. -/
theorem swap_exchanges_whole_assignments_witness :
    (swapGenes [theoryGeneX, theoryGeneY] 0 1).getD 0 default = theoryGeneY :=
  (swap_exchanges_whole_assignments [theoryGeneX, theoryGeneY] 0 1
    (by decide) (by decide)).2.1

/-- C4 (counterexample): on two theory genes with different subjects the
source's swap differs from the (day, period)-field swap the claim describes. -/
theorem swap_is_not_day_period_swap :
    swapGenes [theoryGeneX, theoryGeneY] 0 1 ≠
      specSwapDayPeriod [theoryGeneX, theoryGeneY] 0 1 := by decide

/-- C1: generate_timetable_with_retry evaluated on two attempts whose solvers
reached fitness 100 and 700 (threshold 800): because every attempt returns a
bare list, the fitness of each attempt reads as 0, the first non-empty
attempt is kept rather than the best one, and the returned value is that bare
list, which carries no success flag and no warning list. -/
theorem retry_returns_first_bare_list :
    generate_timetable_with_retry [(100, [theoryGeneX]), (700, [theoryGeneY])] 800 =
      RetryReturn.bareList [theoryGeneX] ∧
    ([theoryGeneX] : List TimeSlot) ≠ [theoryGeneY] := by
  exact ⟨by decide, by decide⟩

theorem is_available_lab_characterization (cc : CSPConstraintChecker)
    (d p : Nat) (f s r : String) :
    is_available cc d p f s r false =
      (decide (¬(f ≠ "" ∧ f ∈ cc.faculty_slots (d, p))) &&
       decide (¬(s ≠ "" ∧ s ∈ cc.section_slots (d, p)))) := by
  unfold is_available
  dsimp only
  split_ifs with h1 h2 h3 <;> simp_all

theorem dayAllAvailable_congr (cc cc' : CSPConstraintChecker) (d : Nat)
    (fac sid room : String)
    (hfac : ∀ p, cc.faculty_slots (d, p) = cc'.faculty_slots (d, p))
    (hsec : ∀ p, cc.section_slots (d, p) = cc'.section_slots (d, p)) :
    dayAllAvailable cc d fac sid room = dayAllAvailable cc' d fac sid room := by
  unfold dayAllAvailable
  simp only [afternoonPeriods, List.all_cons, List.all_nil]
  rw [is_available_lab_characterization, is_available_lab_characterization,
    is_available_lab_characterization, is_available_lab_characterization,
    is_available_lab_characterization, is_available_lab_characterization,
    hfac 4, hfac 5, hfac 6, hsec 4, hsec 5, hsec 6]

theorem dayAllAvailable_eq_facSec (cc : CSPConstraintChecker) (d : Nat)
    (fac sid room : String) (hf : fac ≠ "") (hs : sid ≠ "") :
    dayAllAvailable cc d fac sid room = afternoonFacSecFree cc d fac sid := by
  unfold dayAllAvailable afternoonFacSecFree
  simp only [afternoonPeriods, List.all_cons, List.all_nil]
  rw [is_available_lab_characterization, is_available_lab_characterization,
    is_available_lab_characterization]
  simp [hf, hs]

theorem add_slot_preserves_other_day (cc : CSPConstraintChecker) (g : TimeSlot)
    (d p : Nat) (h : g.day ≠ d) :
    (add_slot cc g).faculty_slots (d, p) = cc.faculty_slots (d, p) ∧
    (add_slot cc g).section_slots (d, p) = cc.section_slots (d, p) := by
  have hne : ((d, p) : Nat × Nat) ≠ (g.day, g.period) := by
    intro hk
    exact h (by injection hk with h1 h2; exact h1.symm)
  unfold add_slot addToSlot
  dsimp only
  exact ⟨if_neg hne, if_neg hne⟩

theorem foldl_add_slot_preserves_other_day (block : List TimeSlot)
    (cc : CSPConstraintChecker) (d p : Nat) (h : ∀ g ∈ block, g.day ≠ d) :
    (block.foldl add_slot cc).faculty_slots (d, p) = cc.faculty_slots (d, p) ∧
    (block.foldl add_slot cc).section_slots (d, p) = cc.section_slots (d, p) := by
  induction block generalizing cc with
  | nil => exact ⟨rfl, rfl⟩
  | cons g gs ih =>
    rw [List.foldl_cons]
    have hstep := add_slot_preserves_other_day cc g d p (h g (List.mem_cons_self g gs))
    have hrest := ih (add_slot cc g) (fun g' hg' => h g' (List.mem_cons_of_mem g hg'))
    exact ⟨hrest.1.trans hstep.1, hrest.2.trans hstep.2⟩

theorem projectBlockGenes_day (subject : Subject) (sid classroom : String)
    (d : Nat) : ∀ g ∈ projectBlockGenes subject sid classroom d, g.day = d := by
  intro g hg
  simp only [projectBlockGenes, afternoonPeriods, List.map_cons, List.map_nil,
    List.mem_cons, List.not_mem_nil, or_false] at hg
  rcases hg with h | h | h <;> subst h <;> rfl

theorem scheduleProjectDays_genes (subject : Subject) (sid classroom : String)
    (B : Nat) (cc0 : CSPConstraintChecker) :
    ∀ (days : List Nat) (st : ProjState), days.Nodup →
      (∀ d ∈ days,
        (∀ p, st.cc.faculty_slots (d, p) = cc0.faculty_slots (d, p)) ∧
        (∀ p, st.cc.section_slots (d, p) = cc0.section_slots (d, p))) →
      (scheduleProjectDays subject sid classroom B days st).genes =
        st.genes ++
          (((days.filter (fun d => dayAllAvailable cc0 d subject.lab_faculty sid classroom)).take
            (B - st.scheduled)).map (projectBlockGenes subject sid classroom)).flatten := by
  intro days
  induction days with
  | nil => intro st _ _; simp [scheduleProjectDays]
  | cons d ds ih =>
    intro st hnd hagree
    have hmemd : d ∈ d :: ds := List.mem_cons_self d ds
    have hav : dayAllAvailable st.cc d subject.lab_faculty sid classroom =
        dayAllAvailable cc0 d subject.lab_faculty sid classroom :=
      dayAllAvailable_congr st.cc cc0 d _ _ _ (hagree d hmemd).1 (hagree d hmemd).2
    rw [scheduleProjectDays]
    by_cases hsat : B ≤ st.scheduled
    · rw [if_pos hsat]
      have : B - st.scheduled = 0 := Nat.sub_eq_zero_of_le hsat
      simp [this]
    · rw [if_neg hsat]
      by_cases hacc : dayAllAvailable st.cc d subject.lab_faculty sid classroom = true
      · rw [if_pos hacc]
        have hacc0 : dayAllAvailable cc0 d subject.lab_faculty sid classroom = true :=
          hav ▸ hacc
        have hagree' : ∀ d' ∈ ds,
            (∀ p, ((projectBlockGenes subject sid classroom d).foldl add_slot st.cc).faculty_slots (d', p) =
              cc0.faculty_slots (d', p)) ∧
            (∀ p, ((projectBlockGenes subject sid classroom d).foldl add_slot st.cc).section_slots (d', p) =
              cc0.section_slots (d', p)) := by
          intro d' hd'
          have hdne : ∀ g ∈ projectBlockGenes subject sid classroom d, g.day ≠ d' := by
            intro g hg
            rw [projectBlockGenes_day subject sid classroom d g hg]
            intro hEq
            subst hEq
            exact (List.nodup_cons.mp hnd).1 hd'
          have hpres := fun p =>
            foldl_add_slot_preserves_other_day (projectBlockGenes subject sid classroom d) st.cc d' p hdne
          refine ⟨fun p => ?_, fun p => ?_⟩
          · exact (hpres p).1.trans ((hagree d' (List.mem_cons_of_mem d hd')).1 p)
          · exact (hpres p).2.trans ((hagree d' (List.mem_cons_of_mem d hd')).2 p)
        rw [ih _ (List.nodup_cons.mp hnd).2 hagree']
        dsimp only
        have hfc : (d :: ds).filter
            (fun d => dayAllAvailable cc0 d subject.lab_faculty sid classroom)
            = d :: ds.filter (fun d => dayAllAvailable cc0 d subject.lab_faculty sid classroom) := by
          rw [List.filter_cons]
          simp [hacc0]
        have htake : B - st.scheduled = (B - st.scheduled - 1) + 1 := by omega
        have hsub : B - (st.scheduled + 1) = B - st.scheduled - 1 := by omega
        rw [hfc, htake, List.take_succ_cons, List.map_cons, List.flatten_cons,
          List.append_assoc, hsub]
      · rw [if_neg hacc]
        have hacc0 : dayAllAvailable cc0 d subject.lab_faculty sid classroom = false := by
          rw [← hav]
          exact Bool.not_eq_true _ |>.mp hacc
        have hagree' : ∀ d' ∈ ds,
            (∀ p, st.cc.faculty_slots (d', p) = cc0.faculty_slots (d', p)) ∧
            (∀ p, st.cc.section_slots (d', p) = cc0.section_slots (d', p)) :=
          fun d' hd' => hagree d' (List.mem_cons_of_mem d hd')
        rw [ih _ (List.nodup_cons.mp hnd).2 hagree']
        have hfc : (d :: ds).filter
            (fun d => dayAllAvailable cc0 d subject.lab_faculty sid classroom)
            = ds.filter (fun d => dayAllAvailable cc0 d subject.lab_faculty sid classroom) := by
          rw [List.filter_cons]
          simp [hacc0]
        rw [hfc]

/-- C6 (amended): for a Project subject with a non-empty lab faculty,
_schedule_project_csp appends exactly one three-assignment afternoon block
(periods 4, 5, 6, non-theory, in the section's classroom) for each of the
first lab_hours / 3 days — taken in ascending day order over
range(days_per_week) — whose three afternoon periods pass the availability
test; and because that test is made with is_theory = false, it checks only
the project faculty and the section, ignoring the classroom occupancy. -/
theorem project_blocks_first_fit (subject : Subject) (sid classroom : String)
    (D : Nat) (cc0 : CSPConstraintChecker) (genes0 : List TimeSlot)
    (hfac : subject.lab_faculty ≠ "") (hsid : sid ≠ "") :
    (schedule_project_csp subject sid classroom D ⟨genes0, cc0, 0⟩).genes =
      genes0 ++ ((projectAcceptedDays cc0 subject.lab_faculty sid classroom D
        (subject.lab_hours / 3)).map (projectBlockGenes subject sid classroom)).flatten ∧
    (∀ d, dayAllAvailable cc0 d subject.lab_faculty sid classroom =
      afternoonFacSecFree cc0 d subject.lab_faculty sid) ∧
    (∀ d, (projectBlockGenes subject sid classroom d).map (fun g => g.period) = [4, 5, 6]) := by
  refine ⟨?_, fun d => dayAllAvailable_eq_facSec cc0 d subject.lab_faculty sid classroom hfac hsid,
    fun d => rfl⟩
  unfold schedule_project_csp
  rw [if_neg hfac]
  have h := scheduleProjectDays_genes subject sid classroom (subject.lab_hours / 3) cc0
    (List.range D) ⟨genes0, cc0, 0⟩ (List.nodup_range D)
    (fun d _ => ⟨fun p => rfl, fun p => rfl⟩)
  rw [h]
  rfl

/-- C6 (witness): the theorem applied to a one-block project subject over two
days against an empty initial checker. -/
theorem project_blocks_first_fit_witness :
    (schedule_project_csp projectSubject "6_A" "R1" 2 ⟨[], emptyChecker, 0⟩).genes =
      [] ++ ((projectAcceptedDays emptyChecker "F1" "6_A" "R1" 2 1).map
        (projectBlockGenes projectSubject "6_A" "R1")).flatten :=
  (project_blocks_first_fit projectSubject "6_A" "R1" 2 emptyChecker []
    (by decide) (by decide)).1

/-- C6 (counterexample): with the section's classroom R1 already occupied at
(day 0, period 4), the claim says day 0 cannot be accepted, yet the code
commits the project block on day 0 because the availability query with
is_theory = false never consults the room occupancy. -/
theorem project_day_accepted_despite_busy_classroom :
    "R1" ∈ projectBlockedRoomChecker.room_slots (0, 4) ∧
    ((schedule_project_csp projectSubject "6_A" "R1" 2
      ⟨[], projectBlockedRoomChecker, 0⟩).genes.map (fun g => (g.day, g.period))) =
        [(0, 4), (0, 5), (0, 6)] := by
  exact ⟨by decide, by decide⟩

theorem findBestMove_spec (genes : List TimeSlot) (tabu : List (Nat × Nat))
    (cur : Int) :
    ∀ (samples : List (Nat × Nat)) (bm : Option (Nat × Nat)) (bf : Int),
      (bm = none → bf = cur) → cur ≤ bf →
      (∀ i j, bm = some (i, j) → bf = calculate_fitness (swapGenes genes i j)) →
      ((findBestMove genes tabu samples (bm, bf)).1 = none →
        (findBestMove genes tabu samples (bm, bf)).2 = cur) ∧
      cur ≤ (findBestMove genes tabu samples (bm, bf)).2 ∧
      (∀ i j, (findBestMove genes tabu samples (bm, bf)).1 = some (i, j) →
        (findBestMove genes tabu samples (bm, bf)).2 =
          calculate_fitness (swapGenes genes i j)) := by
  intro samples
  induction samples with
  | nil =>
    intro bm bf h1 h2 h3
    exact ⟨h1, h2, h3⟩
  | cons s rest ih =>
    intro bm bf h1 h2 h3
    rcases s with ⟨i, j⟩
    show ((findBestMove genes tabu ((i, j) :: rest) (bm, bf)).1 = none → _) ∧ _
    rw [findBestMove]
    split_ifs with hlen hguard htabu
    · exact ⟨h1, h2, h3⟩
    · exact ih bm bf h1 h2 h3
    · exact ih bm bf h1 h2 h3
    · dsimp only
      by_cases himp : bf < calculate_fitness (swapGenes genes i j)
      · rw [if_pos himp]
        refine ih (some (i, j)) (calculate_fitness (swapGenes genes i j)) (by intro h; cases h)
          (le_of_lt (lt_of_le_of_lt h2 himp)) ?_
        intro i' j' hEq
        injection hEq with hpair
        injection hpair with hi hj
        rw [← hi, ← hj]
      · rw [if_neg himp]
        exact ih bm bf h1 h2 h3

theorem tabuIteration_spec (tabu_size : Nat) (samples : List (Nat × Nat))
    (st : TabuState) (hinv : st.current = calculate_fitness st.genes) :
    (tabuIteration tabu_size samples st).current =
      calculate_fitness (tabuIteration tabu_size samples st).genes ∧
    st.current ≤ (tabuIteration tabu_size samples st).current := by
  have hspec := findBestMove_spec st.genes st.tabu st.current samples none st.current
    (fun _ => rfl) (le_refl _) (by intro i j h; cases h)
  unfold tabuIteration
  split_ifs with hstop
  · exact ⟨hinv, le_refl _⟩
  · rcases hr : findBestMove st.genes st.tabu samples (none, st.current) with ⟨bm, bf⟩
    rw [hr] at hspec
    cases bm with
    | none => exact ⟨hinv, le_refl _⟩
    | some m =>
      rcases m with ⟨i, j⟩
      dsimp only
      exact ⟨(hspec.2.2 i j rfl), hspec.2.1⟩

theorem tabu_fold_spec (tabu_size : Nat) :
    ∀ (oracle : List (List (Nat × Nat))) (st : TabuState),
      st.current = calculate_fitness st.genes →
      ((oracle.foldl (fun st samples => tabuIteration tabu_size samples st) st).current =
        calculate_fitness
          ((oracle.foldl (fun st samples => tabuIteration tabu_size samples st) st).genes) ∧
       st.current ≤
        (oracle.foldl (fun st samples => tabuIteration tabu_size samples st) st).current) := by
  intro oracle
  induction oracle with
  | nil => intro st hinv; exact ⟨hinv, le_refl _⟩
  | cons samples rest ih =>
    intro st hinv
    rw [List.foldl_cons]
    have hstep := tabuIteration_spec tabu_size samples st hinv
    have hrest := ih (tabuIteration tabu_size samples st) hstep.1
    exact ⟨hrest.1, le_trans hstep.2 hrest.2⟩

/-- C9: tabu_local_search never worsens a candidate — for every entry gene
list, every tabu size and every sequence of sampled index pairs (one list per
loop iteration, covering all max_iterations and all randint draws), the
fitness of the assignment list when the search returns is at least its
fitness on entry, because a sampled swap is committed only when its evaluated
fitness strictly exceeds the current one. -/
theorem tabu_search_never_worsens (tabu_size : Nat)
    (oracle : List (List (Nat × Nat))) (genes0 : List TimeSlot) :
    calculate_fitness genes0 ≤
      calculate_fitness ((tabu_local_search tabu_size oracle genes0).genes) := by
  have h := tabu_fold_spec tabu_size oracle ⟨genes0, [], calculate_fitness genes0⟩ rfl
  unfold tabu_local_search
  exact le_of_le_of_eq h.2 h.1

theorem sameExceptDayPeriod_refl (g : TimeSlot) : sameExceptDayPeriod g g :=
  ⟨rfl, rfl, rfl, rfl, rfl, rfl, rfl, rfl⟩

theorem sameExceptDayPeriod_trans {a b c : TimeSlot}
    (h1 : sameExceptDayPeriod a b) (h2 : sameExceptDayPeriod b c) :
    sameExceptDayPeriod a c := by
  unfold sameExceptDayPeriod at h1 h2 ⊢
  obtain ⟨x1, x2, x3, x4, x5, x6, x7, x8⟩ := h1
  obtain ⟨y1, y2, y3, y4, y5, y6, y7, y8⟩ := h2
  exact ⟨x1.trans y1, x2.trans y2, x3.trans y3, x4.trans y4,
    x5.trans y5, x6.trans y6, x7.trans y7, x8.trans y8⟩

theorem labIndices_mem (genes : List TimeSlot) (k : LabKey) (i : Nat) :
    i ∈ labIndices genes k ↔
      i < genes.length ∧ (genes.getD i default).is_theory = false ∧
        keyOf (genes.getD i default) = k := by
  unfold labIndices
  simp [List.mem_filter, List.mem_range, decide_eq_true_iff, and_assoc]

theorem distinctKeys_nodup {α : Type} [DecidableEq α] (ks : List α) :
    (distinctKeys ks).Nodup := by
  have hgen : ∀ (ks : List α) (acc : List α), acc.Nodup →
      (ks.foldl (fun acc k => if k ∈ acc then acc else acc ++ [k]) acc).Nodup := by
    intro ks
    induction ks with
    | nil => intro acc h; exact h
    | cons k rest ih =>
      intro acc h
      rw [List.foldl_cons]
      by_cases hk : k ∈ acc
      · rw [if_pos hk]; exact ih acc h
      · rw [if_neg hk]
        refine ih (acc ++ [k]) ?_
        rw [List.nodup_append]
        refine ⟨h, List.nodup_singleton k, ?_⟩
        simp only [List.disjoint_singleton]
        exact hk
  exact hgen ks [] List.nodup_nil

theorem getD_double_set (l : List TimeSlot) (i0 i1 : Nat) (a b : TimeSlot) (m : Nat) :
    ((l.set i0 a).set i1 b).getD m default = l.getD m default ∨
    (m = i0 ∧ ((l.set i0 a).set i1 b).getD m default = a) ∨
    (m = i1 ∧ ((l.set i0 a).set i1 b).getD m default = b) := by
  by_cases h1 : m = i1
  · subst h1
    by_cases hlt : m < l.length
    · right; right
      exact ⟨rfl, getD_set_self _ _ _ _ (by simpa using hlt)⟩
    · left
      have hle : l.length ≤ m := Nat.le_of_not_lt hlt
      rw [List.set_eq_of_length_le (by simpa using hle),
        List.getD_eq_default _ _ hle]
      by_cases h0 : m = i0
      · subst h0
        rw [List.set_eq_of_length_le hle, List.getD_eq_default _ _ hle]
      · rw [getD_set_ne _ _ _ _ _ h0, List.getD_eq_default _ _ hle]
  · rw [getD_set_ne _ _ _ _ _ h1]
    by_cases h0 : m = i0
    · subst h0
      by_cases hlt : m < l.length
      · right; left
        exact ⟨rfl, getD_set_self _ _ _ _ hlt⟩
      · left
        have hle : l.length ≤ m := Nat.le_of_not_lt hlt
        rw [List.set_eq_of_length_le hle]
    · left
      rw [getD_set_ne _ _ _ _ _ h0]

theorem processGroup_frame (ms : List MasterSlot) (D : Nat) (st : RepairState)
    (k : LabKey) (idxs : List Nat) :
    ((processGroup ms D st (k, idxs)).genes.length = st.genes.length) ∧
    (∀ m, m ∉ idxs →
      (processGroup ms D st (k, idxs)).genes.getD m default = st.genes.getD m default) ∧
    (∀ m, sameExceptDayPeriod (st.genes.getD m default)
      ((processGroup ms D st (k, idxs)).genes.getD m default)) ∧
    ((∀ m, (processGroup ms D st (k, idxs)).genes.getD m default = st.genes.getD m default) ∨
      (∃ i0 i1, idxs = [i0, i1] ∧
        max (st.genes.getD i0 default).period (st.genes.getD i1 default).period -
          min (st.genes.getD i0 default).period (st.genes.getD i1 default).period ≠ 1)) := by
  rcases idxs with _ | ⟨i0, _ | ⟨i1, _ | ⟨i2, rest⟩⟩⟩
  · exact ⟨rfl, fun m _ => rfl, fun m => sameExceptDayPeriod_refl _, Or.inl (fun m => rfl)⟩
  · exact ⟨rfl, fun m _ => rfl, fun m => sameExceptDayPeriod_refl _, Or.inl (fun m => rfl)⟩
  · unfold processGroup
    dsimp only
    by_cases hcont : max (st.genes.getD i0 default).period (st.genes.getD i1 default).period -
        min (st.genes.getD i0 default).period (st.genes.getD i1 default).period = 1
    · rw [if_pos (by omega)]
      exact ⟨rfl, fun m _ => rfl, fun m => sameExceptDayPeriod_refl _, Or.inl (fun m => rfl)⟩
    · rw [if_neg (by omega)]
      rcases hsd : sameDaySearch st.genes ms k.2.2.2 (st.genes.getD i0 default).faculty_id
          k.2.1 (st.genes.getD i0 default).room_id [i0, i1] with _ | sp
      · rcases hod : otherDaySearch st.genes ms D k.2.2.2 (st.genes.getD i0 default).faculty_id
            k.2.1 (st.genes.getD i0 default).room_id [i0, i1] with _ | ndsp
        · exact ⟨rfl, fun m _ => rfl, fun m => sameExceptDayPeriod_refl _, Or.inl (fun m => rfl)⟩
        · rcases ndsp with ⟨nd, sp⟩
          dsimp only
          refine ⟨by simp [List.length_set], ?_, ?_, Or.inr ⟨i0, i1, rfl, hcont⟩⟩
          · intro m hm
            simp only [List.mem_cons, List.not_mem_nil, or_false, not_or] at hm
            rw [getD_set_ne _ _ _ _ _ hm.2, getD_set_ne _ _ _ _ _ hm.1]
          · intro m
            rcases getD_double_set st.genes i0 i1 _ _ m with h | ⟨hm, h⟩ | ⟨hm, h⟩
            · rw [h]; exact sameExceptDayPeriod_refl _
            · subst hm
              rw [h]
              exact ⟨rfl, rfl, rfl, rfl, rfl, rfl, rfl, rfl⟩
            · subst hm
              rw [h]
              exact ⟨rfl, rfl, rfl, rfl, rfl, rfl, rfl, rfl⟩
      · dsimp only
        refine ⟨by simp [List.length_set], ?_, ?_, Or.inr ⟨i0, i1, rfl, hcont⟩⟩
        · intro m hm
          simp only [List.mem_cons, List.not_mem_nil, or_false, not_or] at hm
          rw [getD_set_ne _ _ _ _ _ hm.2, getD_set_ne _ _ _ _ _ hm.1]
        · intro m
          rcases getD_double_set st.genes i0 i1 _ _ m with h | ⟨hm, h⟩ | ⟨hm, h⟩
          · rw [h]; exact sameExceptDayPeriod_refl _
          · subst hm
            rw [h]
            exact ⟨rfl, rfl, rfl, rfl, rfl, rfl, rfl, rfl⟩
          · subst hm
            rw [h]
            exact ⟨rfl, rfl, rfl, rfl, rfl, rfl, rfl, rfl⟩
  · exact ⟨rfl, fun m _ => rfl, fun m => sameExceptDayPeriod_refl _, Or.inl (fun m => rfl)⟩

theorem processGroups_fold_spec (ms : List MasterSlot) (D : Nat)
    (genes0 : List TimeSlot) :
    ∀ (gs : List (LabKey × List Nat)) (st : RepairState),
      (∀ p ∈ gs, p.2 = labIndices genes0 p.1) →
      (gs.map Prod.fst).Nodup →
      (∀ p ∈ gs, ∀ m ∈ p.2, st.genes.getD m default = genes0.getD m default) →
      st.genes.length = genes0.length →
      (∀ m, sameExceptDayPeriod (genes0.getD m default) (st.genes.getD m default)) →
      (∀ m, eligibleIdx genes0 m = false →
        st.genes.getD m default = genes0.getD m default) →
      ((gs.foldl (processGroup ms D) st).genes.length = genes0.length ∧
       (∀ m, sameExceptDayPeriod (genes0.getD m default)
         ((gs.foldl (processGroup ms D) st).genes.getD m default)) ∧
       (∀ m, eligibleIdx genes0 m = false →
         (gs.foldl (processGroup ms D) st).genes.getD m default =
           genes0.getD m default)) := by
  intro gs
  induction gs with
  | nil =>
    intro st _ _ _ hlen hsame helig
    exact ⟨hlen, hsame, helig⟩
  | cons hd rest ih =>
    rcases hd with ⟨k, idxs⟩
    intro st hkeys hnd hagree hlen hsame helig
    have hidxs : idxs = labIndices genes0 k :=
      hkeys (k, idxs) (List.mem_cons_self _ _)
    have frame := processGroup_frame ms D st k idxs
    have hheadagree : ∀ m ∈ idxs, st.genes.getD m default = genes0.getD m default :=
      hagree (k, idxs) (List.mem_cons_self _ _)
    have hknotrest : k ∉ rest.map Prod.fst := (List.nodup_cons.mp hnd).1
    rw [List.foldl_cons]
    refine ih (processGroup ms D st (k, idxs))
      (fun p hp => hkeys p (List.mem_cons_of_mem _ hp))
      (List.nodup_cons.mp hnd).2 ?_ (frame.1.trans hlen)
      (fun m => sameExceptDayPeriod_trans (hsame m) (frame.2.2.1 m)) ?_
    · intro p hp m hm
      have hmkey : keyOf (genes0.getD m default) = p.1 := by
        have := (labIndices_mem genes0 p.1 m).mp ((hkeys p (List.mem_cons_of_mem _ hp)) ▸ hm)
        exact this.2.2
      have hmnot : m ∉ idxs := by
        intro hmem
        have := (labIndices_mem genes0 k m).mp (hidxs ▸ hmem)
        have hpk : p.1 = k := hmkey ▸ this.2.2
        exact hknotrest (hpk ▸ List.mem_map_of_mem Prod.fst hp)
      rw [frame.2.1 m hmnot]
      exact hagree p (List.mem_cons_of_mem _ hp) m hm
    · intro m hm
      rcases frame.2.2.2 with hall | ⟨i0, i1, hpair, hbroken⟩
      · rw [hall m]
        exact helig m hm
      · have hmnot : m ∉ idxs := by
          intro hmem
        -- membership facts of m, i0, i1 in the group of key k
          have hmfacts := (labIndices_mem genes0 k m).mp (hidxs ▸ hmem)
          have hi0 : i0 ∈ idxs := by rw [hpair]; exact List.mem_cons_self _ _
          have hi1 : i1 ∈ idxs := by
            rw [hpair]
            exact List.mem_cons_of_mem _ (List.mem_cons_self _ _)
          have hag0 := hheadagree i0 hi0
          have hag1 := hheadagree i1 hi1
          rw [hag0, hag1] at hbroken
          have htrue : eligibleIdx genes0 m = true := by
            unfold eligibleIdx
            rw [hmfacts.2.2, ← hidxs, hpair]
            dsimp only
            simp only [List.getD_cons_zero, List.getD_cons_succ, List.length_cons,
              List.length_nil]
            simp [hmfacts.1]
            constructor
            · simpa [List.getD, List.getElem?_eq_getElem hmfacts.1] using hmfacts.2.1
            · simpa [List.getD] using hbroken
          rw [htrue] at hm
          cases hm
        rw [frame.2.1 m hmnot]
        exact helig m hm

/-- C10: repair_lab_continuity_post_generation preserves the number of
assignments, modifies at most the day and period fields of any assignment
(all other fields of every assignment are returned unchanged), rewrites only
assignments that are non-theory members of a (subject, section, batch, day)
group of exactly two assignments with non-contiguous periods, and in
particular returns every theory assignment — and every assignment of an
already-contiguous two-assignment lab group or of a lab group of any other
size — entirely unchanged. -/
theorem repair_preserves_and_frames (ms : List MasterSlot) (D : Nat)
    (genes : List TimeSlot) (lu : Nat × Nat → List String) :
    ((repair_lab_continuity_post_generation ms D ⟨genes, lu⟩).genes.length =
      genes.length) ∧
    (∀ m, sameExceptDayPeriod (genes.getD m default)
      ((repair_lab_continuity_post_generation ms D ⟨genes, lu⟩).genes.getD m default)) ∧
    (∀ m, eligibleIdx genes m = false →
      (repair_lab_continuity_post_generation ms D ⟨genes, lu⟩).genes.getD m default =
        genes.getD m default) ∧
    (∀ m, (genes.getD m default).is_theory = true →
      (repair_lab_continuity_post_generation ms D ⟨genes, lu⟩).genes.getD m default =
        genes.getD m default) := by
  have hfold := processGroups_fold_spec ms D genes
    ((labKeysOf genes).map (fun k => (k, labIndices genes k))) ⟨genes, lu⟩
    (by
      intro p hp
      rcases List.mem_map.mp hp with ⟨k, _, rfl⟩
      rfl)
    (by
      rw [List.map_map]
      have hcomp : (Prod.fst ∘ fun k => (k, labIndices genes k)) = fun k : LabKey => k := rfl
      rw [hcomp]
      simpa using distinctKeys_nodup _)
    (by intro p _ m _; rfl)
    rfl
    (fun m => sameExceptDayPeriod_refl _)
    (fun m _ => rfl)
  have htheory : ∀ m, (genes.getD m default).is_theory = true →
      eligibleIdx genes m = false := by
    intro m hth
    unfold eligibleIdx
    simp only [List.getD, List.get?_eq_getElem?] at hth
    simp [hth]
  exact ⟨hfold.1, hfold.2.1, hfold.2.2,
    fun m hth => hfold.2.2 m (htheory m hth)⟩

/-- C10 (witness): the theorem applied to a singleton theory gene, which the
repair pass returns unchanged. -/
theorem repair_preserves_and_frames_witness :
    (repair_lab_continuity_post_generation [] 6
      ⟨[theoryGeneX], emptyLabUsage⟩).genes.getD 0 default =
      [theoryGeneX].getD 0 default :=
  (repair_preserves_and_frames [] 6 [theoryGeneX] emptyLabUsage).2.2.2 0 (by decide)
